import Mathlib

/-!
Verification of the fractal iteration engine and color pipeline.

The development shallowly embeds the Rust sources `src/lib.rs` and
`src/palette.rs`.  Machine floating-point values are modelled by exact
arithmetic: the escape-time engine (whose claims are algebraic and use only
ring operations and comparisons) is embedded over `ℚ`, which keeps every
definition computable and every concrete statement decidable; the color
pipeline, which uses the transcendental functions `cos`, `log2`, `sqrt`, is
embedded over `ℝ`.  Every `f64` value is an exact rational, so the `ℚ`
embedding is a faithful idealization of the source arithmetic, and all the
concrete witnesses below use values at which `f64` arithmetic is exact.
The `u32` iteration counter is modelled by `ℕ` (counter overflow, which Rust
defines as a program error, is outside the model); the `u32` grid-size
multiplication in `Sim::new`/`Sim::reset`, whose overflow the claims are
about, is modelled explicitly with a `2 ^ 32` guard reflecting checked
(debug) semantics, where an overflowing construction fails.
-/

/-- Complex numbers over a field, modelling `num::Complex<f64>`. -/
structure Cx (α : Type) where
  re : α
  im : α
deriving DecidableEq

namespace Cx

variable {α : Type}

variable [Field α]

instance : Add (Cx α) :=
  ⟨fun a b => ⟨a.re + b.re, a.im + b.im⟩⟩

/-- Complex multiplication, as in `num::Complex`. -/
instance : Mul (Cx α) :=
  ⟨fun a b => ⟨a.re * b.re - a.im * b.im, a.re * b.im + a.im * b.re⟩⟩

/-- Complex division by the textbook formula used by `num::Complex::div`:
the componentwise quotient scaled by the squared norm of the divisor. -/
instance : Div (Cx α) :=
  ⟨fun a b =>
    let d := b.re * b.re + b.im * b.im
    ⟨(a.re * b.re + a.im * b.im) / d, (a.im * b.re - a.re * b.im) / d⟩⟩

/-- `Complex::norm_sqr`: squared magnitude `re² + im²`. -/
def norm_sqr (a : Cx α) : α := a.re * a.re + a.im * a.im

end Cx

/-- 2D vector (`ultraviolet::DVec2` when `α = ℝ`, also used for the rational
model of the viewport corners). -/
structure DVec2 (α : Type) where
  x : α
  y : α
deriving DecidableEq

/-- 3D vector (`ultraviolet::DVec3`). -/
structure DVec3 (α : Type) where
  x : α
  y : α
  z : α
deriving DecidableEq

namespace DVec3

variable {α : Type}

/-- `DVec3::broadcast`. -/
def broadcast (v : α) : DVec3 α := ⟨v, v, v⟩

/-- Componentwise subtraction. -/
instance [Sub α] : Sub (DVec3 α) :=
  ⟨fun a b => ⟨a.x - b.x, a.y - b.y, a.z - b.z⟩⟩

/-- Scalar times vector. -/
instance [Mul α] : HMul α (DVec3 α) (DVec3 α) :=
  ⟨fun t v => ⟨t * v.x, t * v.y, t * v.z⟩⟩

/-- Vector times scalar. -/
instance [Mul α] : HMul (DVec3 α) α (DVec3 α) :=
  ⟨fun v t => ⟨v.x * t, v.y * t, v.z * t⟩⟩

/-- Vector divided by scalar. -/
instance [Div α] : HDiv (DVec3 α) α (DVec3 α) :=
  ⟨fun v t => ⟨v.x / t, v.y / t, v.z / t⟩⟩

/-- `DVec3::dot`. -/
def dot [Mul α] [Add α] (a b : DVec3 α) : α := a.x * b.x + a.y * b.y + a.z * b.z

/-- `DVec3::clamp`: componentwise `self.max(lo).min(hi)`, as `ultraviolet`
implements it with `f64::max` / `f64::min`. -/
def clamp [LinearOrder α] (v lo hi : DVec3 α) : DVec3 α :=
  ⟨min (max v.x lo.x) hi.x, min (max v.y lo.y) hi.y, min (max v.z lo.z) hi.z⟩

end DVec3

/-- `ultraviolet::UVec2`, used for the framebuffer dimensions (`u32` fields,
modelled by `ℕ`; the `u32` range bound appears as a hypothesis where the
claims depend on it). -/
structure UVec2 where
  x : ℕ
  y : ℕ
deriving DecidableEq

/-- `SimConfig` from `src/lib.rs`, with the viewport corners over `ℚ`. -/
structure SimConfig where
  fb_dims : UVec2
  frame_min : DVec2 ℚ
  frame_max : DVec2 ℚ
deriving DecidableEq

namespace SimConfig

/-- `SimConfig::idx_to_complex` from `src/lib.rs`: unpack `idx` into integer
pixel coordinates, normalize, flip vertically, and interpolate linearly into
the viewport rectangle. -/
def idx_to_complex (cfg : SimConfig) (idx : ℕ) : Cx ℚ :=
  let x : ℕ := idx % cfg.fb_dims.x
  let y : ℕ := idx / cfg.fb_dims.x
  let xn : ℚ := (x : ℚ) / (cfg.fb_dims.x : ℚ)
  let yn : ℚ := (y : ℚ) / (cfg.fb_dims.y : ℚ)
  let yf : ℚ := 1 - yn
  let xr : ℚ := xn * cfg.frame_max.x + (1 - xn) * cfg.frame_min.x
  let yr : ℚ := yf * cfg.frame_max.y + (1 - yf) * cfg.frame_min.y
  ⟨xr, yr⟩

end SimConfig

/-- `GridCell` from `src/lib.rs`, parametric in the number type so the same
structure serves the `ℚ` engine model and the `ℝ` palette model. -/
structure GridCell (α : Type) where
  c : Cx α
  z : Cx α
  dc : Cx α
  dz : Cx α
  iters : ℕ
  has_escaped : Bool
deriving DecidableEq

/-- The secondary bailout threshold `R2 = 1_000_000` from `src/lib.rs`. -/
def R2 : ℕ := 1000 * 1000

namespace GridCell

/-- `GridCell::new`. -/
def new {α : Type} [Field α] (c : Cx α) : GridCell α where
  c := c
  z := ⟨0, 0⟩
  dc := ⟨1, 0⟩
  dz := ⟨1, 0⟩
  iters := 0
  has_escaped := false

/-- `GridCell::step` from `src/lib.rs`: an early return when `|z|² > R2`,
otherwise increment `iters`, apply the Mandelbrot recurrence to `z` and the
derivative recurrence to `dz`, and set `has_escaped` when the committed `z`
has `|z|² > 4`. -/
def step (cell : GridCell ℚ) : GridCell ℚ :=
  if cell.z.norm_sqr > (R2 : ℚ) then cell
  else
    let iters := cell.iters + 1
    let z := cell.z * cell.z + cell.c
    let dz := cell.dz * ⟨2, 0⟩ * cell.z + cell.dc
    { cell with
      iters := iters
      z := z
      dz := dz
      has_escaped := if z.norm_sqr > 4 then true else cell.has_escaped }

/-- `n` successive calls of `GridCell::step` (what `n` calls of
`Sim::update` do to one cell). -/
def stepN (n : ℕ) (cell : GridCell ℚ) : GridCell ℚ :=
  match n with
  | 0 => cell
  | n + 1 => (cell.stepN n).step

end GridCell

/-- The 16-entry color table from `src/lib.rs` (and duplicated in
`src/palette.rs`), here over `ℚ` for the engine-side palette used by
`Sim::draw`. -/
def COLOR_MAPPING : List (DVec3 ℚ) :=
  [⟨66, 30, 15⟩, ⟨25, 7, 26⟩, ⟨9, 1, 47⟩, ⟨4, 4, 73⟩,
   ⟨0, 7, 100⟩, ⟨12, 44, 138⟩, ⟨24, 82, 177⟩, ⟨57, 125, 209⟩,
   ⟨134, 181, 229⟩, ⟨211, 236, 248⟩, ⟨241, 233, 191⟩, ⟨248, 201, 95⟩,
   ⟨255, 170, 0⟩, ⟨204, 128, 0⟩, ⟨153, 87, 0⟩, ⟨106, 52, 3⟩]

/-- `palette_with_plain_colors` from `src/lib.rs`: the color table indexed by
`iters mod 16` and normalized by 255 for escaped cells, black otherwise. -/
def palette_with_plain_colors (cell : GridCell ℚ) : DVec3 ℚ :=
  if cell.has_escaped then
    COLOR_MAPPING.getD (cell.iters % COLOR_MAPPING.length) (DVec3.broadcast 0) / (255 : ℚ)
  else
    DVec3.broadcast 0

/-- `rgb` from `src/lib.rs`: pack three 8-bit channels as `0RGB`. -/
def rgb (r g b : ℕ) : ℕ := (r <<< 16) ||| (g <<< 8) ||| b

/-- Rust `as u8` cast on a (finite) `f64` value: truncate toward zero and
saturate into `[0, 255]`. -/
def f64_as_u8 (v : ℚ) : ℕ := min 255 ⌊v⌋₊

/-- `Sim` from `src/lib.rs`. -/
structure Sim where
  config : SimConfig
  grid : List (GridCell ℚ)
deriving DecidableEq

/-- The grid-construction loop shared by `Sim::new` and `Sim::reset`: one
cell per index in `0..width*height`, seeded through `idx_to_complex`. -/
def buildGrid (cfg : SimConfig) : List (GridCell ℚ) :=
  (List.range (cfg.fb_dims.x * cfg.fb_dims.y)).map
    (fun idx => GridCell.new (cfg.idx_to_complex idx))

namespace Sim

/-- `Sim::new`: computes `fb_dims.x * fb_dims.y` in `u32` (an overflowing
product is a construction failure under checked semantics, modelled as
`none`) and fills the grid. -/
def new (cfg : SimConfig) : Option Sim :=
  if cfg.fb_dims.x * cfg.fb_dims.y < 2 ^ 32 then
    some ⟨cfg, buildGrid cfg⟩
  else
    none

/-- `Sim::reset`: clears the grid and rebuilds it exactly as `new` does,
from the stored configuration (with the same `u32` size computation). -/
def reset (s : Sim) : Option Sim :=
  if s.config.fb_dims.x * s.config.fb_dims.y < 2 ^ 32 then
    some ⟨s.config, buildGrid s.config⟩
  else
    none

/-- `Sim::update`: step every cell (sequentially or in parallel; each cell
is independent, so the result is the pointwise map of `GridCell::step`). -/
def update (s : Sim) : Sim := ⟨s.config, s.grid.map GridCell.step⟩

/-- `n` successive `Sim::update` calls. -/
def updateN (n : ℕ) (s : Sim) : Sim :=
  match n with
  | 0 => s
  | n + 1 => (s.updateN n).update

/-- `Sim::draw` with the compiled-in `palette_with_plain_colors` color
function: asserts that the framebuffer length equals the grid length (a
failed assertion panics before any pixel is written, modelled as `none`),
then writes one packed clamped color per pixel. -/
def draw (s : Sim) (fb : List ℕ) : Option (List ℕ) :=
  if fb.length = s.grid.length then
    some (s.grid.map (fun cell =>
      let c := palette_with_plain_colors cell
      let c := c.clamp (DVec3.broadcast 0) (DVec3.broadcast 1)
      let c := c * (255 : ℚ)
      rgb (f64_as_u8 c.x) (f64_as_u8 c.y) (f64_as_u8 c.z)))
  else
    none

end Sim

/-! ### The color pipeline of `src/palette.rs`, over `ℝ` -/

namespace Palette

noncomputable section

/-- `std::f64::consts::TAU`. -/
def TAU : ℝ := 2 * Real.pi

/-- `f64::log2`. -/
def log2 (x : ℝ) : ℝ := Real.logb 2 x

/-- `ultraviolet::DVec2::mag`: `sqrt (v · v)`. -/
def DVec2.mag (v : DVec2 ℝ) : ℝ := Real.sqrt (v.x * v.x + v.y * v.y)

/-- `ultraviolet::DVec2::normalized`: the vector divided by its magnitude. -/
def DVec2.normalized (v : DVec2 ℝ) : DVec2 ℝ :=
  ⟨v.x / DVec2.mag v, v.y / DVec2.mag v⟩

/-- `ultraviolet::DVec3::mag`. -/
def DVec3.mag (v : DVec3 ℝ) : ℝ := Real.sqrt (v.x * v.x + v.y * v.y + v.z * v.z)

/-- `ultraviolet::DVec3::normalized`. -/
def DVec3.normalized (v : DVec3 ℝ) : DVec3 ℝ :=
  ⟨v.x / DVec3.mag v, v.y / DVec3.mag v, v.z / DVec3.mag v⟩

/-- Rust `as usize` cast on a (finite, here nonnegative-or-truncated-to-0)
`f64` value: truncate toward zero and saturate into the `usize` range. -/
def f64_as_usize (x : ℝ) : ℕ := min (2 ^ 64 - 1) ⌊x⌋₊

/-- The 16-entry color table of `src/palette.rs`. -/
def COLOR_MAPPING : List (DVec3 ℝ) :=
  [⟨66, 30, 15⟩, ⟨25, 7, 26⟩, ⟨9, 1, 47⟩, ⟨4, 4, 73⟩,
   ⟨0, 7, 100⟩, ⟨12, 44, 138⟩, ⟨24, 82, 177⟩, ⟨57, 125, 209⟩,
   ⟨134, 181, 229⟩, ⟨211, 236, 248⟩, ⟨241, 233, 191⟩, ⟨248, 201, 95⟩,
   ⟨255, 170, 0⟩, ⟨204, 128, 0⟩, ⟨153, 87, 0⟩, ⟨106, 52, 3⟩]

/-- `with_plain_colors` from `src/palette.rs`. -/
def with_plain_colors (cell : GridCell ℝ) : DVec3 ℝ :=
  if cell.has_escaped then
    COLOR_MAPPING.getD (cell.iters % COLOR_MAPPING.length) (DVec3.broadcast 0) /
      (255 : ℝ)
  else
    DVec3.broadcast 0

/-- The helper `f` nested in `with_smooth_stripes`. -/
def f (x : ℝ) : DVec3 ℝ := DVec3.broadcast ((1 + Real.cos (TAU * x)) / 2)

/-- `with_smooth_stripes` from `src/palette.rs`: the continuous-banding
value for cells past the `R2` bailout, white otherwise. -/
def with_smooth_stripes (cell : GridCell ℝ) : DVec3 ℝ :=
  let z2 := cell.z.norm_sqr
  if z2 > ((R2 : ℕ) : ℝ) then
    let v : ℝ := log2 z2 / (2 : ℝ) ^ (cell.iters : ℝ)
    f (log2 v)
  else
    DVec3.broadcast 1

/-- The light source `L_POS` shared by the two Lambert palettes. -/
def L_POS : DVec3 ℝ := ⟨-2.1, 0.75, 4⟩

/-- `with_lambert_and_colors` from `src/palette.rs`. -/
def with_lambert_and_colors (cell : GridCell ℝ) : DVec3 ℝ :=
  let color :=
    if cell.has_escaped then
      COLOR_MAPPING.getD (cell.iters % COLOR_MAPPING.length) (DVec3.broadcast 0) /
        (255 : ℝ)
    else
      (0.8 : ℝ) * ((⟨205, 92, 92⟩ : DVec3 ℝ) / (255 : ℝ))
  let u : Cx ℝ := cell.z / cell.dz
  let un := DVec2.normalized ⟨u.re, u.im⟩
  let n : DVec3 ℝ := ⟨un.x, un.y, 1⟩
  let pos : DVec3 ℝ := ⟨cell.c.re, cell.c.im, 0⟩
  let l_dir := DVec3.normalized (L_POS - pos)
  let t := (0.75 : ℝ) / DVec3.mag l_dir
  let t := max t 0
  (t * max (n.dot l_dir) 0) * color

/-- `with_white_lambert` from `src/palette.rs`. -/
def with_white_lambert (cell : GridCell ℝ) : DVec3 ℝ :=
  let color :=
    if cell.has_escaped then (⟨1, 1, 1⟩ : DVec3 ℝ) else (⟨0, 0, 0⟩ : DVec3 ℝ)
  let u : Cx ℝ := cell.z / cell.dz
  let un := DVec2.normalized ⟨u.re, u.im⟩
  let n : DVec3 ℝ := ⟨un.x, un.y, 1⟩
  let pos : DVec3 ℝ := ⟨cell.c.re, cell.c.im, 0⟩
  let l_dir := DVec3.normalized (L_POS - pos)
  let t := (0.75 : ℝ) / DVec3.mag l_dir
  let t := max t 0
  (t * max (n.dot l_dir) 0) * color

/-- `with_color_from_dz` from `src/palette.rs`. -/
def with_color_from_dz (cell : GridCell ℝ) : DVec3 ℝ :=
  let x : ℝ := 30 * cell.dz.re
  COLOR_MAPPING.getD (f64_as_usize x % COLOR_MAPPING.length) (DVec3.broadcast 0) /
    (255 : ℝ)

/-- All three channels lie in `[0, 1]`. -/
def InUnitRange (v : DVec3 ℝ) : Prop :=
  (0 ≤ v.x ∧ v.x ≤ 1) ∧ (0 ≤ v.y ∧ v.y ≤ 1) ∧ (0 ≤ v.z ∧ v.z ≤ 1)

/-- All three channels lie in `[0, 0.75·√2]` (the sharp range of the two
Lambert palettes; note `0.75·√2 ≈ 1.06 > 1`). -/
def InLambertRange (v : DVec3 ℝ) : Prop :=
  (0 ≤ v.x ∧ v.x ≤ 0.75 * Real.sqrt 2) ∧
  (0 ≤ v.y ∧ v.y ≤ 0.75 * Real.sqrt 2) ∧
  (0 ≤ v.z ∧ v.z ≤ 0.75 * Real.sqrt 2)

end

end Palette

/-! ### Structural lemmas for the embedding types -/

namespace Cx

variable {α : Type}

@[ext] theorem ext {a b : Cx α} (hre : a.re = b.re) (him : a.im = b.im) :
    a = b := by
  cases a; cases b; cases hre; cases him; rfl

variable [Field α]

@[simp] theorem add_re (a b : Cx α) : (a + b).re = a.re + b.re := rfl

@[simp] theorem add_im (a b : Cx α) : (a + b).im = a.im + b.im := rfl

@[simp] theorem mul_re (a b : Cx α) : (a * b).re = a.re * b.re - a.im * b.im := rfl

@[simp] theorem mul_im (a b : Cx α) : (a * b).im = a.re * b.im + a.im * b.re := rfl

end Cx

namespace DVec3

variable {α : Type}

@[simp] theorem sub_x [Sub α] (a b : DVec3 α) : (a - b).x = a.x - b.x := rfl

@[simp] theorem sub_y [Sub α] (a b : DVec3 α) : (a - b).y = a.y - b.y := rfl

@[simp] theorem sub_z [Sub α] (a b : DVec3 α) : (a - b).z = a.z - b.z := rfl

@[simp] theorem smul_x [Mul α] (t : α) (v : DVec3 α) : (t * v).x = t * v.x := rfl

@[simp] theorem smul_y [Mul α] (t : α) (v : DVec3 α) : (t * v).y = t * v.y := rfl

@[simp] theorem smul_z [Mul α] (t : α) (v : DVec3 α) : (t * v).z = t * v.z := rfl

@[simp] theorem muls_x [Mul α] (v : DVec3 α) (t : α) : (v * t).x = v.x * t := rfl

@[simp] theorem muls_y [Mul α] (v : DVec3 α) (t : α) : (v * t).y = v.y * t := rfl

@[simp] theorem muls_z [Mul α] (v : DVec3 α) (t : α) : (v * t).z = v.z * t := rfl

@[simp] theorem divs_x [Div α] (v : DVec3 α) (t : α) : (v / t).x = v.x / t := rfl

@[simp] theorem divs_y [Div α] (v : DVec3 α) (t : α) : (v / t).y = v.y / t := rfl

@[simp] theorem divs_z [Div α] (v : DVec3 α) (t : α) : (v / t).z = v.z / t := rfl

end DVec3

/-! ### Basic lemmas about `GridCell.step` -/

/-- Unfolding `step` in the bailout case. -/
theorem GridCell.step_of_bailout {cell : GridCell ℚ}
    (h : cell.z.norm_sqr > (R2 : ℚ)) : cell.step = cell := by
  simp [GridCell.step, h]

/-- Unfolding `step` in the stepping case. -/
theorem GridCell.step_of_not_bailout {cell : GridCell ℚ}
    (h : ¬ cell.z.norm_sqr > (R2 : ℚ)) :
    cell.step =
      { cell with
        iters := cell.iters + 1
        z := cell.z * cell.z + cell.c
        dz := cell.dz * ⟨2, 0⟩ * cell.z + cell.dc
        has_escaped :=
          if (cell.z * cell.z + cell.c).norm_sqr > 4 then true
          else cell.has_escaped } := by
  simp [GridCell.step, h]

/-- `step` never clears the escape flag. -/
theorem GridCell.step_escaped_mono {cell : GridCell ℚ}
    (h : cell.has_escaped = true) : cell.step.has_escaped = true := by
  by_cases hb : cell.z.norm_sqr > (R2 : ℚ)
  · rw [GridCell.step_of_bailout hb]; exact h
  · rw [GridCell.step_of_not_bailout hb]
    by_cases h4 : (cell.z * cell.z + cell.c).norm_sqr > 4 <;> simp [h4, h]

/-- Claim C1 counterexample: the cell reached from `c = 2` after two steps
has `has_escaped = true` (with `z = 6`, whose squared magnitude 36 is within
the bailout threshold), yet a further `step` changes its `z`, `dz` and
`iters`. -/
theorem step_not_noop_on_escaped_cex :
    (GridCell.stepN 2 (GridCell.new ⟨2, 0⟩)).has_escaped = true ∧
    ((GridCell.stepN 2 (GridCell.new ⟨2, 0⟩)).step.z ≠
        (GridCell.stepN 2 (GridCell.new ⟨2, 0⟩)).z ∧
      (GridCell.stepN 2 (GridCell.new ⟨2, 0⟩)).step.dz ≠
        (GridCell.stepN 2 (GridCell.new ⟨2, 0⟩)).dz ∧
      (GridCell.stepN 2 (GridCell.new ⟨2, 0⟩)).step.iters ≠
        (GridCell.stepN 2 (GridCell.new ⟨2, 0⟩)).iters) := by
  norm_num [GridCell.stepN, GridCell.step, GridCell.new, Cx.norm_sqr, R2,
    Cx.ext_iff]

/-- Claim C1 (amended): `step` is an idempotent no-op exactly on cells past
the bailout threshold `|z|² > R2`; on such cells any number of steps changes
nothing.  For an escaped cell within the threshold, `z`, `dz`, `iters` keep
evolving, but the `has_escaped` flag itself is never cleared by `step`. -/
theorem step_noop_on_bailout (cell : GridCell ℚ) :
    (cell.z.norm_sqr > (R2 : ℚ) → ∀ n, GridCell.stepN n cell = cell) ∧
    (cell.has_escaped = true → cell.step.has_escaped = true) := by
  constructor
  · intro h n
    induction n with
    | zero => rfl
    | succ n ih => rw [GridCell.stepN, ih, GridCell.step_of_bailout h]
  · exact GridCell.step_escaped_mono

/-- Witness for C1 (amended) at a concrete cell with `|z|² = 4·10⁶ > R2`. -/
theorem step_noop_on_bailout_witness :
    GridCell.stepN 3 (⟨⟨2, 0⟩, ⟨2000, 0⟩, ⟨1, 0⟩, ⟨5, 0⟩, 7, true⟩ : GridCell ℚ) =
      (⟨⟨2, 0⟩, ⟨2000, 0⟩, ⟨1, 0⟩, ⟨5, 0⟩, 7, true⟩ : GridCell ℚ) ∧
    (⟨⟨2, 0⟩, ⟨2000, 0⟩, ⟨1, 0⟩, ⟨5, 0⟩, 7, true⟩ : GridCell ℚ).step.has_escaped = true :=
  ⟨(step_noop_on_bailout _).1 (by norm_num [Cx.norm_sqr, R2]) 3,
   (step_noop_on_bailout _).2 rfl⟩

/-- Claim C2: a stepped cell (one not skipped by the bailout) gets `iters`
incremented by exactly one, `z` replaced by `z·z + c`, `dz` by `2·dz·z + dc`
(all from the pre-step values), keeps `c` and `dc`, and ends with
`has_escaped` true exactly when it was already true or the committed `z`
satisfies `|z|² > 4` (strict); in particular `step` never clears the flag. -/
theorem step_recurrence (cell : GridCell ℚ)
    (h : ¬ cell.z.norm_sqr > (R2 : ℚ)) :
    cell.step.iters = cell.iters + 1 ∧
    cell.step.z = cell.z * cell.z + cell.c ∧
    cell.step.dz = ⟨2, 0⟩ * cell.dz * cell.z + cell.dc ∧
    cell.step.c = cell.c ∧
    cell.step.dc = cell.dc ∧
    (cell.step.has_escaped = true ↔
      (cell.has_escaped = true ∨ (cell.z * cell.z + cell.c).norm_sqr > 4)) := by
  rw [GridCell.step_of_not_bailout h]
  refine ⟨rfl, rfl, ?_, rfl, rfl, ?_⟩
  · ext <;> simp <;> ring
  · by_cases h4 : (cell.z * cell.z + cell.c).norm_sqr > 4 <;> simp [h4]

/-- Witness for C2 at the cell reached from `c = 2` after one step. -/
theorem step_recurrence_witness :
    (⟨⟨2, 0⟩, ⟨2, 0⟩, ⟨1, 0⟩, ⟨1, 0⟩, 1, false⟩ : GridCell ℚ).step.iters = 1 + 1 ∧
    (⟨⟨2, 0⟩, ⟨2, 0⟩, ⟨1, 0⟩, ⟨1, 0⟩, 1, false⟩ : GridCell ℚ).step.z =
      (⟨2, 0⟩ : Cx ℚ) * ⟨2, 0⟩ + ⟨2, 0⟩ ∧
    (⟨⟨2, 0⟩, ⟨2, 0⟩, ⟨1, 0⟩, ⟨1, 0⟩, 1, false⟩ : GridCell ℚ).step.dz =
      (⟨2, 0⟩ : Cx ℚ) * ⟨1, 0⟩ * ⟨2, 0⟩ + ⟨1, 0⟩ ∧
    (⟨⟨2, 0⟩, ⟨2, 0⟩, ⟨1, 0⟩, ⟨1, 0⟩, 1, false⟩ : GridCell ℚ).step.c = ⟨2, 0⟩ ∧
    (⟨⟨2, 0⟩, ⟨2, 0⟩, ⟨1, 0⟩, ⟨1, 0⟩, 1, false⟩ : GridCell ℚ).step.dc = ⟨1, 0⟩ ∧
    ((⟨⟨2, 0⟩, ⟨2, 0⟩, ⟨1, 0⟩, ⟨1, 0⟩, 1, false⟩ : GridCell ℚ).step.has_escaped = true ↔
      ((false : Bool) = true ∨
        ((⟨2, 0⟩ : Cx ℚ) * ⟨2, 0⟩ + ⟨2, 0⟩).norm_sqr > 4)) :=
  step_recurrence ⟨⟨2, 0⟩, ⟨2, 0⟩, ⟨1, 0⟩, ⟨1, 0⟩, 1, false⟩
    (by norm_num [Cx.norm_sqr, R2])

/-- Claim C3: for an in-range index, `idx_to_complex` returns the complex
number with real part `nx·frame_max.x + (1-nx)·frame_min.x` and imaginary
part `nyf·frame_max.y + (1-nyf)·frame_min.y`, where `x = idx mod width`,
`y = idx div width`, `nx = x/width`, `ny = y/height` and `nyf = 1 - ny` is
the vertical flip; in particular index 0 maps to the top-left corner
`(frame_min.x, frame_max.y)`. -/
theorem idx_to_complex_formula (cfg : SimConfig) (idx : ℕ)
    (h : idx < cfg.fb_dims.x * cfg.fb_dims.y) :
    cfg.idx_to_complex idx =
      ⟨((idx % cfg.fb_dims.x : ℕ) : ℚ) / (cfg.fb_dims.x : ℚ) * cfg.frame_max.x +
          (1 - ((idx % cfg.fb_dims.x : ℕ) : ℚ) / (cfg.fb_dims.x : ℚ)) * cfg.frame_min.x,
        (1 - ((idx / cfg.fb_dims.x : ℕ) : ℚ) / (cfg.fb_dims.y : ℚ)) * cfg.frame_max.y +
          (1 - (1 - ((idx / cfg.fb_dims.x : ℕ) : ℚ) / (cfg.fb_dims.y : ℚ))) * cfg.frame_min.y⟩ ∧
    cfg.idx_to_complex 0 = ⟨cfg.frame_min.x, cfg.frame_max.y⟩ := by
  refine ⟨rfl, ?_⟩
  simp [SimConfig.idx_to_complex]

/-- Witness for C3 on a 2×2 grid over the square `[-2, 2]²`. -/
theorem idx_to_complex_formula_witness :
    (⟨⟨2, 2⟩, ⟨-2, -2⟩, ⟨2, 2⟩⟩ : SimConfig).idx_to_complex 3 =
      ⟨((3 % 2 : ℕ) : ℚ) / (2 : ℚ) * 2 + (1 - ((3 % 2 : ℕ) : ℚ) / (2 : ℚ)) * (-2),
        (1 - ((3 / 2 : ℕ) : ℚ) / (2 : ℚ)) * 2 +
          (1 - (1 - ((3 / 2 : ℕ) : ℚ) / (2 : ℚ))) * (-2)⟩ ∧
    (⟨⟨2, 2⟩, ⟨-2, -2⟩, ⟨2, 2⟩⟩ : SimConfig).idx_to_complex 0 = ⟨-2, 2⟩ :=
  idx_to_complex_formula ⟨⟨2, 2⟩, ⟨-2, -2⟩, ⟨2, 2⟩⟩ 3 (by norm_num)

/-! ### Lemmas about `Sim.update` and the grid -/

/-- `update` keeps the configuration. -/
theorem Sim.updateN_config (n : ℕ) (s : Sim) :
    (Sim.updateN n s).config = s.config := by
  induction n with
  | zero => rfl
  | succ n ih => rw [Sim.updateN, Sim.update, ih]

/-- The grid built by `new`/`reset` has one cell per pixel. -/
theorem buildGrid_length (cfg : SimConfig) :
    (buildGrid cfg).length = cfg.fb_dims.x * cfg.fb_dims.y := by
  simp [buildGrid]

/-- Cell `idx` of the freshly built grid is seeded from `idx_to_complex`. -/
theorem buildGrid_get (cfg : SimConfig) (i : ℕ)
    (hi : i < (buildGrid cfg).length) :
    (buildGrid cfg).get ⟨i, hi⟩ = GridCell.new (cfg.idx_to_complex i) := by
  simp [buildGrid]

/-- Claim C4: resetting a simulation in any state reachable from `new` by
`update` calls yields back exactly the simulation `new` produced from the
same configuration: a grid of `width·height` cells where cell `idx` carries
its original `c = idx_to_complex idx`, `z = 0`, `dc = 1`, `dz = 1`,
`iters = 0` and `has_escaped = false`. -/
theorem reset_restores_initial (cfg : SimConfig) (s0 : Sim) (n : ℕ)
    (h : Sim.new cfg = some s0) :
    Sim.reset (Sim.updateN n s0) = some s0 ∧
    s0.grid.length = cfg.fb_dims.x * cfg.fb_dims.y ∧
    ∀ i (hi : i < s0.grid.length),
      (s0.grid.get ⟨i, hi⟩).c = cfg.idx_to_complex i ∧
      (s0.grid.get ⟨i, hi⟩).z = ⟨0, 0⟩ ∧
      (s0.grid.get ⟨i, hi⟩).dc = ⟨1, 0⟩ ∧
      (s0.grid.get ⟨i, hi⟩).dz = ⟨1, 0⟩ ∧
      (s0.grid.get ⟨i, hi⟩).iters = 0 ∧
      (s0.grid.get ⟨i, hi⟩).has_escaped = false := by
  rw [Sim.new] at h
  by_cases hg : cfg.fb_dims.x * cfg.fb_dims.y < 2 ^ 32
  · rw [if_pos hg] at h
    obtain rfl : (⟨cfg, buildGrid cfg⟩ : Sim) = s0 := Option.some.injEq _ _ ▸ h
    refine ⟨?_, buildGrid_length cfg, ?_⟩
    · rw [Sim.reset, Sim.updateN_config]
      simp only [if_pos hg]
    · intro i hi
      rw [buildGrid_get cfg i hi]
      exact ⟨rfl, rfl, rfl, rfl, rfl, rfl⟩
  · rw [if_neg hg] at h
    exact absurd h (by simp)

/-- Witness for C4 on a 2×2 grid, after one `update`. -/
theorem reset_restores_initial_witness :
    Sim.reset
        (Sim.updateN 1
          ⟨⟨⟨2, 2⟩, ⟨-2, -2⟩, ⟨2, 2⟩⟩, buildGrid ⟨⟨2, 2⟩, ⟨-2, -2⟩, ⟨2, 2⟩⟩⟩) =
      some ⟨⟨⟨2, 2⟩, ⟨-2, -2⟩, ⟨2, 2⟩⟩, buildGrid ⟨⟨2, 2⟩, ⟨-2, -2⟩, ⟨2, 2⟩⟩⟩ :=
  (reset_restores_initial ⟨⟨2, 2⟩, ⟨-2, -2⟩, ⟨2, 2⟩⟩ _ 1 rfl).1

/-- Stepping preserves the all-zero state of a `c = 0` cell. -/
theorem GridCell.step_zero {cell : GridCell ℚ} (hc : cell.c = ⟨0, 0⟩)
    (hz : cell.z = ⟨0, 0⟩) (he : cell.has_escaped = false) :
    cell.step.c = ⟨0, 0⟩ ∧ cell.step.z = ⟨0, 0⟩ ∧
      cell.step.has_escaped = false := by
  have hb : ¬ cell.z.norm_sqr > (R2 : ℚ) := by
    rw [hz]; norm_num [Cx.norm_sqr, R2]
  rw [GridCell.step_of_not_bailout hb, hc, hz]
  norm_num [Cx.norm_sqr, he]
  ext <;> norm_num

/-- Claim C7: the cell at `c = 0` keeps `z = 0` and never escapes, for any
number of steps; the cell at `c = 2` has `z = 2` and is still not escaped
after one step (`|2|² = 4` is not `> 4`), reaches `z = 6` and escapes on the
second step (`36 > 4`), and stays escaped from then on. -/
theorem known_fixed_points :
    (∀ n, (GridCell.stepN n (GridCell.new ⟨0, 0⟩)).z = ⟨0, 0⟩ ∧
      (GridCell.stepN n (GridCell.new ⟨0, 0⟩)).has_escaped = false) ∧
    ((GridCell.stepN 1 (GridCell.new ⟨2, 0⟩)).z = ⟨2, 0⟩ ∧
      (GridCell.stepN 1 (GridCell.new ⟨2, 0⟩)).has_escaped = false) ∧
    ((GridCell.stepN 2 (GridCell.new ⟨2, 0⟩)).z = ⟨6, 0⟩ ∧
      (GridCell.stepN 2 (GridCell.new ⟨2, 0⟩)).has_escaped = true) ∧
    (∀ n, 2 ≤ n →
      (GridCell.stepN n (GridCell.new ⟨2, 0⟩)).has_escaped = true) := by
  refine ⟨?_, ?_, ?_, ?_⟩
  · have key : ∀ n, (GridCell.stepN n (GridCell.new ⟨0, 0⟩)).c = ⟨0, 0⟩ ∧
        (GridCell.stepN n (GridCell.new ⟨0, 0⟩)).z = ⟨0, 0⟩ ∧
        (GridCell.stepN n (GridCell.new ⟨0, 0⟩)).has_escaped = false := by
      intro n
      induction n with
      | zero => exact ⟨rfl, rfl, rfl⟩
      | succ n ih =>
        obtain ⟨hc, hz, he⟩ := ih
        have := GridCell.step_zero hc hz he
        exact ⟨this.1, this.2.1, this.2.2⟩
    exact fun n => ⟨(key n).2.1, (key n).2.2⟩
  · constructor <;>
      norm_num [GridCell.stepN, GridCell.step, GridCell.new, Cx.norm_sqr, R2,
        Cx.ext_iff]
  · constructor <;>
      norm_num [GridCell.stepN, GridCell.step, GridCell.new, Cx.norm_sqr, R2,
        Cx.ext_iff]
  · intro n hn
    obtain ⟨k, rfl⟩ : ∃ k, n = 2 + k := ⟨n - 2, by omega⟩
    induction k with
    | zero =>
      norm_num [GridCell.stepN, GridCell.step, GridCell.new, Cx.norm_sqr, R2]
    | succ k ih =>
      have hstep : GridCell.stepN (2 + (k + 1)) (GridCell.new ⟨2, 0⟩) =
          (GridCell.stepN (2 + k) (GridCell.new ⟨2, 0⟩)).step := rfl
      rw [hstep]
      exact GridCell.step_escaped_mono (ih (by omega))

/-- Witness for C7 at five steps of each orbit. -/
theorem known_fixed_points_witness :
    ((GridCell.stepN 5 (GridCell.new ⟨0, 0⟩)).z = ⟨0, 0⟩ ∧
      (GridCell.stepN 5 (GridCell.new ⟨0, 0⟩)).has_escaped = false) ∧
    (GridCell.stepN 5 (GridCell.new ⟨2, 0⟩)).has_escaped = true :=
  ⟨known_fixed_points.1 5, known_fixed_points.2.2.2 5 (by norm_num)⟩

/-- Claim C9: construction succeeds exactly when `width·height` fits the
`u32` index type; on success the grid has exactly `width·height` cells and
cell `idx` is seeded with `c = idx_to_complex idx`. -/
theorem new_guarded_by_overflow (cfg : SimConfig) :
    (cfg.fb_dims.x * cfg.fb_dims.y < 2 ^ 32 →
      ∃ s, Sim.new cfg = some s ∧
        s.grid.length = cfg.fb_dims.x * cfg.fb_dims.y ∧
        ∀ i (hi : i < s.grid.length),
          s.grid.get ⟨i, hi⟩ = GridCell.new (cfg.idx_to_complex i)) ∧
    (¬ cfg.fb_dims.x * cfg.fb_dims.y < 2 ^ 32 → Sim.new cfg = none) := by
  constructor
  · intro h
    refine ⟨⟨cfg, buildGrid cfg⟩, ?_, buildGrid_length cfg, buildGrid_get cfg⟩
    rw [Sim.new, if_pos h]
  · intro h
    rw [Sim.new, if_neg h]

/-- Witness for C9 on a 2×2 configuration. -/
theorem new_guarded_by_overflow_witness :
    ∃ s, Sim.new ⟨⟨2, 2⟩, ⟨-2, -2⟩, ⟨2, 2⟩⟩ = some s ∧
      s.grid.length = 2 * 2 ∧
      ∀ i (hi : i < s.grid.length),
        s.grid.get ⟨i, hi⟩ =
          GridCell.new ((⟨⟨2, 2⟩, ⟨-2, -2⟩, ⟨2, 2⟩⟩ : SimConfig).idx_to_complex i) :=
  (new_guarded_by_overflow ⟨⟨2, 2⟩, ⟨-2, -2⟩, ⟨2, 2⟩⟩).1 (by norm_num)

/-- A freshly seeded cell satisfies the escape invariant (`z = 0`). -/
theorem GridCell.inv_new (c : Cx ℚ) :
    (GridCell.new c).has_escaped = false → (GridCell.new c).z.norm_sqr ≤ 4 := by
  intro _
  norm_num [GridCell.new, Cx.norm_sqr]

/-- `step` preserves the escape invariant: whenever the stepped cell is
still unescaped, its committed `z` has `|z|² ≤ 4`. -/
theorem GridCell.inv_step (cell : GridCell ℚ)
    (h : cell.has_escaped = false → cell.z.norm_sqr ≤ 4) :
    cell.step.has_escaped = false → cell.step.z.norm_sqr ≤ 4 := by
  intro he
  by_cases hb : cell.z.norm_sqr > (R2 : ℚ)
  · rw [GridCell.step_of_bailout hb] at he ⊢
    exact h he
  · rw [GridCell.step_of_not_bailout hb] at he ⊢
    by_cases h4 : (cell.z * cell.z + cell.c).norm_sqr > 4
    · simp [h4] at he
    · simpa using not_lt.mp h4

/-- Claim C10: the invariant `has_escaped = false → |z|² ≤ 4` holds for
every freshly seeded cell, is preserved by `step`, and therefore holds for
every cell of every simulation state reachable from `new` by `update`
calls. -/
theorem escape_flag_invariant :
    (∀ c : Cx ℚ, (GridCell.new c).has_escaped = false →
      (GridCell.new c).z.norm_sqr ≤ 4) ∧
    (∀ cell : GridCell ℚ,
      (cell.has_escaped = false → cell.z.norm_sqr ≤ 4) →
      (cell.step.has_escaped = false → cell.step.z.norm_sqr ≤ 4)) ∧
    (∀ (cfg : SimConfig) (s0 : Sim) (n : ℕ), Sim.new cfg = some s0 →
      ∀ cell ∈ (Sim.updateN n s0).grid,
        cell.has_escaped = false → cell.z.norm_sqr ≤ 4) := by
  refine ⟨GridCell.inv_new, GridCell.inv_step, ?_⟩
  intro cfg s0 n h
  rw [Sim.new] at h
  by_cases hg : cfg.fb_dims.x * cfg.fb_dims.y < 2 ^ 32
  · rw [if_pos hg] at h
    obtain rfl : (⟨cfg, buildGrid cfg⟩ : Sim) = s0 := Option.some.injEq _ _ ▸ h
    induction n with
    | zero =>
      intro cell hcell
      obtain ⟨idx, _, rfl⟩ := List.mem_map.mp hcell
      exact GridCell.inv_new _
    | succ n ih =>
      intro cell hcell
      obtain ⟨prev, hprev, rfl⟩ := List.mem_map.mp hcell
      exact GridCell.inv_step prev (ih prev hprev)
  · rw [if_neg hg] at h
    exact absurd h (by simp)

/-- Witness for C10: the preservation clause applied at a concrete cell
whose stepped state is concretely unescaped. -/
theorem escape_flag_invariant_witness :
    (GridCell.new (⟨1/4, 0⟩ : Cx ℚ)).step.z.norm_sqr ≤ 4 :=
  escape_flag_invariant.2.1 (GridCell.new ⟨1/4, 0⟩)
    (GridCell.inv_new _)
    (by norm_num [GridCell.step, GridCell.new, Cx.norm_sqr, R2])

/-- `update` preserves the grid length. -/
theorem Sim.updateN_grid_length (n : ℕ) (s : Sim) :
    (Sim.updateN n s).grid.length = s.grid.length := by
  induction n with
  | zero => rfl
  | succ n ih => simpa [Sim.updateN, Sim.update] using ih

/-- Claim C8: in any state reachable from `new` by `update` calls, the grid
length is `width·height`; `draw` on a framebuffer of any other length fails
up front without producing (or modifying) any pixels, and on a framebuffer
of matching length it writes exactly one packed, clamped color per pixel. -/
theorem draw_length_contract (cfg : SimConfig) (s0 : Sim) (n : ℕ)
    (fb : List ℕ) (h : Sim.new cfg = some s0) :
    (Sim.updateN n s0).grid.length = cfg.fb_dims.x * cfg.fb_dims.y ∧
    (fb.length ≠ cfg.fb_dims.x * cfg.fb_dims.y →
      (Sim.updateN n s0).draw fb = none) ∧
    (fb.length = cfg.fb_dims.x * cfg.fb_dims.y →
      ∃ out, (Sim.updateN n s0).draw fb = some out ∧
        out.length = cfg.fb_dims.x * cfg.fb_dims.y ∧
        ∀ i (hi : i < (Sim.updateN n s0).grid.length) (ho : i < out.length),
          out.get ⟨i, ho⟩ =
            rgb (f64_as_u8 ((((palette_with_plain_colors
                    ((Sim.updateN n s0).grid.get ⟨i, hi⟩)).clamp
                  (DVec3.broadcast 0) (DVec3.broadcast 1)) * (255 : ℚ)).x))
              (f64_as_u8 ((((palette_with_plain_colors
                    ((Sim.updateN n s0).grid.get ⟨i, hi⟩)).clamp
                  (DVec3.broadcast 0) (DVec3.broadcast 1)) * (255 : ℚ)).y))
              (f64_as_u8 ((((palette_with_plain_colors
                    ((Sim.updateN n s0).grid.get ⟨i, hi⟩)).clamp
                  (DVec3.broadcast 0) (DVec3.broadcast 1)) * (255 : ℚ)).z))) := by
  have hlen : (Sim.updateN n s0).grid.length = cfg.fb_dims.x * cfg.fb_dims.y := by
    rw [Sim.updateN_grid_length]
    rw [Sim.new] at h
    by_cases hg : cfg.fb_dims.x * cfg.fb_dims.y < 2 ^ 32
    · rw [if_pos hg] at h
      obtain rfl : (⟨cfg, buildGrid cfg⟩ : Sim) = s0 := Option.some.injEq _ _ ▸ h
      exact buildGrid_length cfg
    · rw [if_neg hg] at h
      exact absurd h (by simp)
  refine ⟨hlen, ?_, ?_⟩
  · intro hne
    rw [Sim.draw, if_neg]
    omega
  · intro heq
    rw [Sim.draw, if_pos (by omega)]
    refine ⟨_, rfl, by simpa using hlen, ?_⟩
    intro i hi ho
    simp

/-- Witness for C8 on a 2×2 grid: a 3-element framebuffer is rejected and a
4-element framebuffer is fully drawn. -/
theorem draw_length_contract_witness :
    (Sim.updateN 0
        ⟨⟨⟨2, 2⟩, ⟨-2, -2⟩, ⟨2, 2⟩⟩, buildGrid ⟨⟨2, 2⟩, ⟨-2, -2⟩, ⟨2, 2⟩⟩⟩).draw
        [0, 0, 0] = none ∧
    ∃ out,
      (Sim.updateN 0
          ⟨⟨⟨2, 2⟩, ⟨-2, -2⟩, ⟨2, 2⟩⟩, buildGrid ⟨⟨2, 2⟩, ⟨-2, -2⟩, ⟨2, 2⟩⟩⟩).draw
          [0, 0, 0, 0] = some out ∧
      out.length = 2 * 2 ∧
      ∀ i (hi : i <
          (Sim.updateN 0
            ⟨⟨⟨2, 2⟩, ⟨-2, -2⟩, ⟨2, 2⟩⟩,
              buildGrid ⟨⟨2, 2⟩, ⟨-2, -2⟩, ⟨2, 2⟩⟩⟩).grid.length)
        (ho : i < out.length),
        out.get ⟨i, ho⟩ =
          rgb (f64_as_u8 ((((palette_with_plain_colors
                  ((Sim.updateN 0
                    ⟨⟨⟨2, 2⟩, ⟨-2, -2⟩, ⟨2, 2⟩⟩,
                      buildGrid ⟨⟨2, 2⟩, ⟨-2, -2⟩, ⟨2, 2⟩⟩⟩).grid.get ⟨i, hi⟩)).clamp
                (DVec3.broadcast 0) (DVec3.broadcast 1)) * (255 : ℚ)).x))
            (f64_as_u8 ((((palette_with_plain_colors
                  ((Sim.updateN 0
                    ⟨⟨⟨2, 2⟩, ⟨-2, -2⟩, ⟨2, 2⟩⟩,
                      buildGrid ⟨⟨2, 2⟩, ⟨-2, -2⟩, ⟨2, 2⟩⟩⟩).grid.get ⟨i, hi⟩)).clamp
                (DVec3.broadcast 0) (DVec3.broadcast 1)) * (255 : ℚ)).y))
            (f64_as_u8 ((((palette_with_plain_colors
                  ((Sim.updateN 0
                    ⟨⟨⟨2, 2⟩, ⟨-2, -2⟩, ⟨2, 2⟩⟩,
                      buildGrid ⟨⟨2, 2⟩, ⟨-2, -2⟩, ⟨2, 2⟩⟩⟩).grid.get ⟨i, hi⟩)).clamp
                (DVec3.broadcast 0) (DVec3.broadcast 1)) * (255 : ℚ)).z)) :=
  ⟨(draw_length_contract ⟨⟨2, 2⟩, ⟨-2, -2⟩, ⟨2, 2⟩⟩ _ 0 [0, 0, 0] rfl).2.1
      (by norm_num),
   (draw_length_contract ⟨⟨2, 2⟩, ⟨-2, -2⟩, ⟨2, 2⟩⟩ _ 0 [0, 0, 0, 0] rfl).2.2
      (by norm_num)⟩


/-- Claim C5 counterexample: the escaped cell with `z = 6`, `iters = 2` is
returned white by `with_smooth_stripes` (because `|z|² = 36` is not past the
`R2` bailout), while the stripes formula the claim promises for escaped
cells evaluates to a value different from white there. -/
theorem smooth_stripes_not_escape_keyed_cex :
    (⟨⟨0, 0⟩, ⟨6, 0⟩, ⟨1, 0⟩, ⟨1, 0⟩, 2, true⟩ : GridCell ℝ).has_escaped = true ∧
    Palette.with_smooth_stripes ⟨⟨0, 0⟩, ⟨6, 0⟩, ⟨1, 0⟩, ⟨1, 0⟩, 2, true⟩ =
      DVec3.broadcast 1 ∧
    Palette.f (Palette.log2 (Palette.log2
        ((⟨⟨0, 0⟩, ⟨6, 0⟩, ⟨1, 0⟩, ⟨1, 0⟩, 2, true⟩ : GridCell ℝ).z.norm_sqr) /
          (2 : ℝ) ^
            (((⟨⟨0, 0⟩, ⟨6, 0⟩, ⟨1, 0⟩, ⟨1, 0⟩, 2, true⟩ : GridCell ℝ).iters : ℝ)))) ≠
      DVec3.broadcast 1 := by
  refine ⟨rfl, ?_, ?_⟩
  · rw [Palette.with_smooth_stripes]
    norm_num [Cx.norm_sqr, R2]
  · have hb : (1 : ℝ) < 2 := by norm_num
    have hz : ((⟨⟨0, 0⟩, ⟨6, 0⟩, ⟨1, 0⟩, ⟨1, 0⟩, 2, true⟩ : GridCell ℝ).z.norm_sqr)
        = 36 := by norm_num [Cx.norm_sqr]
    have hp : ((2 : ℝ) ^
        (((⟨⟨0, 0⟩, ⟨6, 0⟩, ⟨1, 0⟩, ⟨1, 0⟩, 2, true⟩ : GridCell ℝ).iters : ℝ))) = 4 := by
      rw [show (((⟨⟨0, 0⟩, ⟨6, 0⟩, ⟨1, 0⟩, ⟨1, 0⟩, 2, true⟩ : GridCell ℝ).iters : ℝ))
          = ((2 : ℕ) : ℝ) from rfl, Real.rpow_natCast]
      norm_num
    rw [hz, hp]
    set v : ℝ := Palette.log2 36 / 4 with hv
    have hv1 : (1 : ℝ) < v := by
      rw [hv, Palette.log2, lt_div_iff₀ (by norm_num : (0:ℝ) < 4)]
      have h16 : ((2:ℝ) ^ (4:ℝ)) < 36 := by
        rw [show (4:ℝ) = ((4:ℕ):ℝ) by norm_num, Real.rpow_natCast]
        norm_num
      have := (Real.lt_logb_iff_rpow_lt hb (by norm_num : (0:ℝ) < 36)).mpr h16
      linarith
    have hv2 : v < 2 := by
      rw [hv, Palette.log2, div_lt_iff₀ (by norm_num : (0:ℝ) < 4)]
      have h256 : (36:ℝ) < (2:ℝ) ^ (8:ℝ) := by
        rw [show (8:ℝ) = ((8:ℕ):ℝ) by norm_num, Real.rpow_natCast]
        norm_num
      have := (Real.logb_lt_iff_lt_rpow hb (by norm_num : (0:ℝ) < 36)).mpr h256
      linarith
    set x : ℝ := Palette.log2 v with hx
    have hx1 : 0 < x := by
      rw [hx, Palette.log2]
      exact Real.logb_pos hb hv1
    have hx2 : x < 1 := by
      rw [hx, Palette.log2]
      have := (Real.logb_lt_iff_lt_rpow hb (by linarith : (0:ℝ) < v)).mpr
        (by rw [Real.rpow_one]; exact hv2)
      exact this
    have hpi := Real.pi_pos
    have ht1 : 0 < Palette.TAU * x := by
      rw [Palette.TAU]
      positivity
    have ht2 : Palette.TAU * x < 2 * Real.pi := by
      rw [Palette.TAU]
      nlinarith
    have hcos : Real.cos (Palette.TAU * x) ≠ 1 := by
      intro hc
      have := (Real.cos_eq_one_iff_of_lt_of_lt (by linarith) ht2).mp hc
      linarith
    rw [Palette.f, DVec3.broadcast, DVec3.broadcast]
    intro hcontra
    rw [DVec3.mk.injEq] at hcontra
    have : Real.cos (Palette.TAU * x) = 1 := by linarith [hcontra.1]
    exact hcos this

/-- Claim C5 (amended): `with_smooth_stripes` returns the continuous-stripe
value `f(log2(log2(|z|²)/2^iters))` exactly when `|z|²` exceeds the bailout
threshold `R2 = 1,000,000` (not when `has_escaped` is set), and white
`(1,1,1)` exactly when `|z|² ≤ R2`. -/
theorem smooth_stripes_keyed_on_bailout (cell : GridCell ℝ) :
    (cell.z.norm_sqr > ((R2 : ℕ) : ℝ) →
      Palette.with_smooth_stripes cell =
        Palette.f (Palette.log2 (Palette.log2 cell.z.norm_sqr /
          (2 : ℝ) ^ (cell.iters : ℝ)))) ∧
    (¬ cell.z.norm_sqr > ((R2 : ℕ) : ℝ) →
      Palette.with_smooth_stripes cell = DVec3.broadcast 1) := by
  constructor <;> intro h <;> simp [Palette.with_smooth_stripes, h]

/-- Witness for C5 (amended): a cell past the bailout (`z = 2000`) gets the
stripe value, a cell within it (`z = 6`, even though escaped) gets white. -/
theorem smooth_stripes_keyed_on_bailout_witness :
    Palette.with_smooth_stripes ⟨⟨0, 0⟩, ⟨2000, 0⟩, ⟨1, 0⟩, ⟨1, 0⟩, 3, true⟩ =
      Palette.f (Palette.log2 (Palette.log2
        ((⟨⟨0, 0⟩, ⟨2000, 0⟩, ⟨1, 0⟩, ⟨1, 0⟩, 3, true⟩ : GridCell ℝ).z.norm_sqr) /
          (2 : ℝ) ^
            (((⟨⟨0, 0⟩, ⟨2000, 0⟩, ⟨1, 0⟩, ⟨1, 0⟩, 3, true⟩ : GridCell ℝ).iters : ℝ)))) ∧
    Palette.with_smooth_stripes ⟨⟨0, 0⟩, ⟨3, 0⟩, ⟨1, 0⟩, ⟨1, 0⟩, 3, true⟩ =
      DVec3.broadcast 1 :=
  ⟨(smooth_stripes_keyed_on_bailout _).1 (by norm_num [Cx.norm_sqr, R2]),
   (smooth_stripes_keyed_on_bailout _).2 (by norm_num [Cx.norm_sqr, R2])⟩

/-! ### Lemmas for the color pipeline -/

@[simp] theorem Cx.div_re {α : Type} [Field α] (a b : Cx α) :
    (a / b).re = (a.re * b.re + a.im * b.im) / (b.re * b.re + b.im * b.im) := rfl

@[simp] theorem Cx.div_im {α : Type} [Field α] (a b : Cx α) :
    (a / b).im = (a.im * b.re - a.re * b.im) / (b.re * b.re + b.im * b.im) := rfl

/-- Every entry of the color table has channels in `[0, 255]`. -/
theorem Palette.color_mapping_mem_bounds :
    ∀ v ∈ Palette.COLOR_MAPPING,
      (0 ≤ v.x ∧ v.x ≤ 255) ∧ (0 ≤ v.y ∧ v.y ≤ 255) ∧ (0 ≤ v.z ∧ v.z ≤ 255) := by
  intro v hv
  fin_cases hv <;> norm_num

/-- Any `iters mod 16`-style lookup into the table, divided by 255, yields
channels in `[0, 1]`. -/
theorem Palette.table_lookup_in_unit_range (i : ℕ) :
    Palette.InUnitRange
      (Palette.COLOR_MAPPING.getD (i % Palette.COLOR_MAPPING.length)
        (DVec3.broadcast 0) / (255 : ℝ)) := by
  have hlt : i % Palette.COLOR_MAPPING.length < Palette.COLOR_MAPPING.length := by
    apply Nat.mod_lt
    simp [Palette.COLOR_MAPPING]
  rw [List.getD_eq_getElem _ _ hlt]
  have hmem : Palette.COLOR_MAPPING[i % Palette.COLOR_MAPPING.length] ∈
      Palette.COLOR_MAPPING := List.getElem_mem hlt
  obtain ⟨⟨hx0, hx1⟩, ⟨hy0, hy1⟩, ⟨hz0, hz1⟩⟩ :=
    Palette.color_mapping_mem_bounds _ hmem
  refine ⟨⟨?_, ?_⟩, ⟨?_, ?_⟩, ⟨?_, ?_⟩⟩ <;>
    simp only [DVec3.divs_x, DVec3.divs_y, DVec3.divs_z]
  · positivity
  · rw [div_le_one (by norm_num)]; linarith
  · positivity
  · rw [div_le_one (by norm_num)]; linarith
  · positivity
  · rw [div_le_one (by norm_num)]; linarith

/-- Cauchy–Schwarz for the 3D dot product. -/
theorem Palette.dot_le_mag_mul_mag (v w : DVec3 ℝ) :
    DVec3.dot v w ≤ Palette.DVec3.mag v * Palette.DVec3.mag w := by
  have hv : (0:ℝ) ≤ v.x * v.x + v.y * v.y + v.z * v.z := by
    nlinarith [mul_self_nonneg v.x, mul_self_nonneg v.y, mul_self_nonneg v.z]
  have h1 : (DVec3.dot v w) ^ 2 ≤
      (v.x * v.x + v.y * v.y + v.z * v.z) * (w.x * w.x + w.y * w.y + w.z * w.z) := by
    rw [DVec3.dot]
    nlinarith [sq_nonneg (v.x * w.y - v.y * w.x), sq_nonneg (v.x * w.z - v.z * w.x),
      sq_nonneg (v.y * w.z - v.z * w.y)]
  calc DVec3.dot v w ≤ |DVec3.dot v w| := le_abs_self _
    _ = Real.sqrt ((DVec3.dot v w) ^ 2) := (Real.sqrt_sq_eq_abs _).symm
    _ ≤ Real.sqrt ((v.x * v.x + v.y * v.y + v.z * v.z) *
        (w.x * w.x + w.y * w.y + w.z * w.z)) := Real.sqrt_le_sqrt h1
    _ = Palette.DVec3.mag v * Palette.DVec3.mag w := by
        rw [Palette.DVec3.mag, Palette.DVec3.mag, ← Real.sqrt_mul hv]

/-- A normalized 2D vector has squared magnitude at most 1 (it is 0 for the
zero vector, 1 otherwise). -/
theorem Palette.normalized2_sq_le_one (v : DVec2 ℝ) :
    (Palette.DVec2.normalized v).x * (Palette.DVec2.normalized v).x +
      (Palette.DVec2.normalized v).y * (Palette.DVec2.normalized v).y ≤ 1 := by
  rw [Palette.DVec2.normalized, Palette.DVec2.mag]
  by_cases h : v.x * v.x + v.y * v.y = 0
  · simp [h]
  · have hle : (0:ℝ) ≤ v.x * v.x + v.y * v.y := by
      nlinarith [mul_self_nonneg v.x, mul_self_nonneg v.y]
    have hpos : 0 < v.x * v.x + v.y * v.y := lt_of_le_of_ne hle (Ne.symm h)
    have hs : Real.sqrt (v.x * v.x + v.y * v.y) ^ 2 = v.x * v.x + v.y * v.y :=
      Real.sq_sqrt hpos.le
    have key : v.x / Real.sqrt (v.x * v.x + v.y * v.y) *
          (v.x / Real.sqrt (v.x * v.x + v.y * v.y)) +
        v.y / Real.sqrt (v.x * v.x + v.y * v.y) *
          (v.y / Real.sqrt (v.x * v.x + v.y * v.y)) = 1 := by
      rw [div_mul_div_comm, div_mul_div_comm, div_add_div_same,
        show Real.sqrt (v.x * v.x + v.y * v.y) * Real.sqrt (v.x * v.x + v.y * v.y)
          = Real.sqrt (v.x * v.x + v.y * v.y) ^ 2 by ring, hs, div_self h]
    rw [key]

/-- Normalizing a vector of positive squared magnitude gives magnitude 1. -/
theorem Palette.mag_normalized_eq_one (v : DVec3 ℝ)
    (h : 0 < v.x * v.x + v.y * v.y + v.z * v.z) :
    Palette.DVec3.mag (Palette.DVec3.normalized v) = 1 := by
  rw [Palette.DVec3.normalized, Palette.DVec3.mag, Palette.DVec3.mag]
  have hs : Real.sqrt (v.x * v.x + v.y * v.y + v.z * v.z) ^ 2 =
      v.x * v.x + v.y * v.y + v.z * v.z := Real.sq_sqrt h.le
  have hne : v.x * v.x + v.y * v.y + v.z * v.z ≠ 0 := ne_of_gt h
  have key : v.x / Real.sqrt (v.x * v.x + v.y * v.y + v.z * v.z) *
        (v.x / Real.sqrt (v.x * v.x + v.y * v.y + v.z * v.z)) +
      v.y / Real.sqrt (v.x * v.x + v.y * v.y + v.z * v.z) *
        (v.y / Real.sqrt (v.x * v.x + v.y * v.y + v.z * v.z)) +
      v.z / Real.sqrt (v.x * v.x + v.y * v.y + v.z * v.z) *
        (v.z / Real.sqrt (v.x * v.x + v.y * v.y + v.z * v.z)) = 1 := by
    rw [div_mul_div_comm, div_mul_div_comm, div_mul_div_comm, div_add_div_same,
      div_add_div_same,
      show Real.sqrt (v.x * v.x + v.y * v.y + v.z * v.z) *
          Real.sqrt (v.x * v.x + v.y * v.y + v.z * v.z)
        = Real.sqrt (v.x * v.x + v.y * v.y + v.z * v.z) ^ 2 by ring, hs, div_self hne]
  rw [key, Real.sqrt_one]

/-- The common shape of the two Lambert palettes: the light factor
`max(0.75/|l_dir|, 0) · max(n·l_dir, 0)` applied to a base color with unit
channels stays within `[0, 0.75·√2]` in every channel. -/
theorem Palette.lambert_shape_bound (u2 : DVec2 ℝ) (cre cim : ℝ)
    (color : DVec3 ℝ) (hc : Palette.InUnitRange color) :
    Palette.InLambertRange
      ((max ((0.75 : ℝ) /
            Palette.DVec3.mag (Palette.DVec3.normalized
              (Palette.L_POS - ⟨cre, cim, 0⟩))) 0 *
          max (DVec3.dot
              ⟨(Palette.DVec2.normalized u2).x, (Palette.DVec2.normalized u2).y, 1⟩
              (Palette.DVec3.normalized (Palette.L_POS - ⟨cre, cim, 0⟩))) 0) *
        color) := by
  set w : DVec3 ℝ := Palette.L_POS - ⟨cre, cim, 0⟩ with hw
  have hwz : w.z = 4 := by
    rw [hw, Palette.L_POS]
    simp
  have hs : 0 < w.x * w.x + w.y * w.y + w.z * w.z := by
    rw [hwz]
    nlinarith [mul_self_nonneg w.x, mul_self_nonneg w.y]
  have hmag1 : Palette.DVec3.mag (Palette.DVec3.normalized w) = 1 :=
    Palette.mag_normalized_eq_one w hs
  rw [hmag1]
  have ht : max ((0.75 : ℝ) / 1) 0 = 0.75 := by norm_num
  rw [ht]
  set n : DVec3 ℝ :=
    ⟨(Palette.DVec2.normalized u2).x, (Palette.DVec2.normalized u2).y, 1⟩ with hn
  have hmagn : Palette.DVec3.mag n ≤ Real.sqrt 2 := by
    rw [hn, Palette.DVec3.mag]
    apply Real.sqrt_le_sqrt
    have := Palette.normalized2_sq_le_one u2
    dsimp only
    nlinarith
  have hdot : DVec3.dot n (Palette.DVec3.normalized w) ≤ Real.sqrt 2 := by
    calc DVec3.dot n (Palette.DVec3.normalized w) ≤
        Palette.DVec3.mag n * Palette.DVec3.mag (Palette.DVec3.normalized w) :=
          Palette.dot_le_mag_mul_mag _ _
      _ = Palette.DVec3.mag n := by rw [hmag1, mul_one]
      _ ≤ Real.sqrt 2 := hmagn
  have hmax : max (DVec3.dot n (Palette.DVec3.normalized w)) 0 ≤ Real.sqrt 2 :=
    max_le hdot (Real.sqrt_nonneg 2)
  have hmax0 : 0 ≤ max (DVec3.dot n (Palette.DVec3.normalized w)) 0 :=
    le_max_right _ _
  obtain ⟨⟨hx0, hx1⟩, ⟨hy0, hy1⟩, ⟨hz0, hz1⟩⟩ := hc
  refine ⟨⟨?_, ?_⟩, ⟨?_, ?_⟩, ⟨?_, ?_⟩⟩ <;>
    simp only [DVec3.smul_x, DVec3.smul_y, DVec3.smul_z]
  · positivity
  · nlinarith
  · positivity
  · nlinarith
  · positivity
  · nlinarith

/-- Claim C6 counterexample: at the escaped cell `c = 1.9 + 0.75i`,
`z = -1`, `dz = 1`, the white-Lambert palette returns a first channel equal
to `6/√32 = 0.75·√2 ≈ 1.06`, strictly greater than 1, so the five color
functions do not all stay within `[0,1]`. -/
theorem lambert_component_exceeds_one_cex :
    1 < (Palette.with_white_lambert
        ⟨⟨19/10, 3/4⟩, ⟨-1, 0⟩, ⟨1, 0⟩, ⟨1, 0⟩, 0, true⟩).x := by
  have hdiv : ((⟨-1, 0⟩ : Cx ℝ) / ⟨1, 0⟩) = ⟨-1, 0⟩ := by
    ext <;> simp
  have hw : Palette.L_POS - (⟨19/10, 3/4, 0⟩ : DVec3 ℝ) = ⟨-4, 0, 4⟩ := by
    rw [Palette.L_POS]
    show (⟨-2.1 - 19/10, 0.75 - 3/4, 4 - 0⟩ : DVec3 ℝ) = ⟨-4, 0, 4⟩
    norm_num
  have hun : Palette.DVec2.normalized ⟨-1, 0⟩ = (⟨-1, 0⟩ : DVec2 ℝ) := by
    rw [Palette.DVec2.normalized, Palette.DVec2.mag]
    norm_num
  have hmag1 : Palette.DVec3.mag (Palette.DVec3.normalized ⟨-4, 0, 4⟩) = 1 :=
    Palette.mag_normalized_eq_one _ (by norm_num)
  have hldir : Palette.DVec3.normalized ⟨-4, 0, 4⟩ =
      (⟨-4 / Real.sqrt 32, 0, 4 / Real.sqrt 32⟩ : DVec3 ℝ) := by
    rw [Palette.DVec3.normalized, Palette.DVec3.mag]
    norm_num
  have hspos : 0 < Real.sqrt 32 := Real.sqrt_pos.mpr (by norm_num)
  have hdot : DVec3.dot (⟨-1, 0, 1⟩ : DVec3 ℝ)
      ⟨-4 / Real.sqrt 32, 0, 4 / Real.sqrt 32⟩ = 8 / Real.sqrt 32 := by
    rw [DVec3.dot]
    ring
  rw [Palette.with_white_lambert]
  simp only [hdiv]
  rw [hw, hun, hmag1, hldir]
  dsimp only
  rw [hdot]
  simp only [if_pos rfl, if_true]
  have h6 : Real.sqrt 32 < 6 := by
    nlinarith [Real.sq_sqrt (show (0:ℝ) ≤ 32 by norm_num), Real.sqrt_nonneg 32]
  have hmax1 : ((0.75 : ℝ) / 1 ⊔ 0) = 0.75 := by norm_num
  have hmax2 : (8 / Real.sqrt 32 ⊔ 0) = 8 / Real.sqrt 32 :=
    max_eq_left (by positivity)
  rw [hmax1, hmax2]
  show 1 < (0.75 : ℝ) * (8 / Real.sqrt 32) * 1
  rw [mul_one, show (0.75 : ℝ) * (8 / Real.sqrt 32) = 6 / Real.sqrt 32 by ring]
  exact (one_lt_div hspos).mpr h6

/-- Claim C6 (amended): in exact real arithmetic every channel of every one
of the five color functions is nonnegative and at most `0.75·√2 ≈ 1.06`;
the plain, smooth-stripes and derivative palettes stay within `[0,1]`, but
the two Lambert palettes can exceed 1 (the counterexample reaches exactly
`0.75·√2`), so the claimed `[0,1]` bound fails for them.  The degenerate
`dz = 0` case stays within the same bounds (no NaN arises in the real
model, where the `0/0` normal collapses to the `(0,0,1)` fallback). -/
theorem color_functions_bounded (cell : GridCell ℝ) :
    Palette.InUnitRange (Palette.with_plain_colors cell) ∧
    Palette.InUnitRange (Palette.with_smooth_stripes cell) ∧
    Palette.InUnitRange (Palette.with_color_from_dz cell) ∧
    Palette.InLambertRange (Palette.with_lambert_and_colors cell) ∧
    Palette.InLambertRange (Palette.with_white_lambert cell) := by
  refine ⟨?_, ?_, ?_, ?_, ?_⟩
  · rw [Palette.with_plain_colors]
    by_cases h : cell.has_escaped
    · rw [if_pos h]
      exact Palette.table_lookup_in_unit_range _
    · rw [if_neg h]
      norm_num [Palette.InUnitRange, DVec3.broadcast]
  · rw [Palette.with_smooth_stripes]
    by_cases h : cell.z.norm_sqr > ((R2 : ℕ) : ℝ)
    · rw [if_pos h, Palette.f]
      have hc1 := Real.cos_le_one (Palette.TAU *
        Palette.log2 (Palette.log2 cell.z.norm_sqr / (2 : ℝ) ^ (cell.iters : ℝ)))
      have hc2 := Real.neg_one_le_cos (Palette.TAU *
        Palette.log2 (Palette.log2 cell.z.norm_sqr / (2 : ℝ) ^ (cell.iters : ℝ)))
      rw [Palette.InUnitRange, DVec3.broadcast]
      refine ⟨⟨?_, ?_⟩, ⟨?_, ?_⟩, ⟨?_, ?_⟩⟩ <;> dsimp only <;> linarith
    · rw [if_neg h]
      norm_num [Palette.InUnitRange, DVec3.broadcast]
  · rw [Palette.with_color_from_dz]
    exact Palette.table_lookup_in_unit_range _
  · rw [Palette.with_lambert_and_colors]
    apply Palette.lambert_shape_bound
    by_cases h : cell.has_escaped
    · rw [if_pos h]
      exact Palette.table_lookup_in_unit_range _
    · rw [if_neg h]
      rw [Palette.InUnitRange]
      refine ⟨⟨?_, ?_⟩, ⟨?_, ?_⟩, ⟨?_, ?_⟩⟩ <;>
        simp only [DVec3.smul_x, DVec3.smul_y, DVec3.smul_z,
          DVec3.divs_x, DVec3.divs_y, DVec3.divs_z] <;> norm_num
  · rw [Palette.with_white_lambert]
    apply Palette.lambert_shape_bound
    by_cases h : cell.has_escaped
    · rw [if_pos h]
      norm_num [Palette.InUnitRange]
    · rw [if_neg h]
      norm_num [Palette.InUnitRange]
